import Mathlib

/-!
Shallow embedding of the pyqiwi client library (`pyqiwi/__init__.py`): the
payment-form link encoder `generate_form_link`, the balance lookup
`Wallet.balance`, the identification glue `Wallet.identification`, and the
wallet-number normalization performed by `Wallet.__init__`.

Python dictionaries are modelled as insertion-ordered association lists
(`dictSet` mirrors `d[k] = v`, `dictGet` mirrors `d.get(k)`), Python floats by
rationals, and the distinct `ValueError`s by the error kinds named in the
specification. Helper functions of `pyqiwi/util.py` and the entity decoders of
`pyqiwi/types.py` are not among the source files; the definitions below that
carry a doc comment starting with "Modelled from the spec" follow the
specification's description of them.
-/

namespace Pyqiwi

/-- Python dict assignment `d[k] = v`: replace the value in place when the key
exists, append otherwise (insertion order is preserved; the dicts built here
always carry pairwise distinct keys, as Python dicts do). -/
def dictSet {α : Type} : List (String × α) → String → α → List (String × α)
  | [], k, v => [(k, v)]
  | p :: rest, k, v => if p.1 == k then (k, v) :: rest else p :: dictSet rest k v

/-- Python dict lookup `d.get(k)`. -/
def dictGet {α : Type} (d : List (String × α)) (k : String) : Option α :=
  (d.find? (fun p => p.1 == k)).map (fun p => p.2)

/-- Python truthiness of an optional string: `None` and `""` are falsy. -/
def pyTruthy : Option String → Bool
  | none => false
  | some s => s != ""

/-- Error kinds the specification names for the `ValueError`s raised by the
library (§7). -/
inductive QiwiError
  | AmountTooLarge
  | InvalidBlockedField
  | NoUsableBalance
deriving DecidableEq

/-- The `blocked` argument of `generate_form_link` as a Python value: only an
actual `list` passes the `type(blocked) == list` check in the source. -/
inductive PyBlocked
  | pylist (entries : List String)
  | pytuple (entries : List String)
  | pyset (entries : List String)
  | pystr (s : String)
  | pynone
deriving DecidableEq

/-- Python `type(blocked) == list`. -/
def PyBlocked.isPyList : PyBlocked → Bool
  | .pylist _ => true
  | _ => false

/-- The `account_type` argument of `generate_form_link` as a Python value: an
integer, a string, or `None`. -/
inductive PyAccountType
  | pyint (n : Int)
  | pystr (s : String)
  | pynone
deriving DecidableEq

/-- Python `account_type == n` for an integer `n` (false for strings and
`None`). -/
def PyAccountType.eqInt : PyAccountType → Int → Bool
  | .pyint m, n => m == n
  | _, _ => false

/-- Python `type(account_type) == str`. -/
def PyAccountType.isStr : PyAccountType → Bool
  | .pystr _ => true
  | _ => false

/-- The string payload of a `str`-typed `account_type`. -/
def PyAccountType.strVal : PyAccountType → String
  | .pystr s => s
  | _ => ""

/-- Decimal rendering of a natural number, as Python `str` renders the indices
of the repeated `blocked[i]` query keys. -/
def natStr (n : Nat) : String :=
  if n = 0 then "0" else String.mk (((Nat.digits 10 n).map Nat.digitChar).reverse)

/-- Modelled from the spec: `util.split_float` (the module `pyqiwi/util.py` is
not among the source files). Splits the amount into an integer-part parameter
and a fractional-cents parameter, rounding down to the cent on excess
precision (§4.2 step 2; §8 scenario: amount 100.5 yields `amount=100` and a
cents parameter of 50 — the spec leaves the cents key unnamed, `amountFraction`
is used here). -/
def split_float (amount : ℚ) : List (String × String) :=
  [("amount", toString ⌊amount⌋),
   ("amountFraction", toString (⌊amount * 100⌋ - 100 * ⌊amount⌋))]

/-- Modelled from the spec: `util.merge_dicts` (pyqiwi/util.py is not among the
source files) is a Python dict merge; later entries overwrite earlier keys. -/
def merge_dicts (a b : List (String × String)) : List (String × String) :=
  b.foldl (fun d p => dictSet d p.1 p.2) a

/-- Modelled from the spec: `util.sources_list` (pyqiwi/util.py is not among
the source files) attaches a list as a repeated/list-style query parameter
`name[0]=v0`, `name[1]=v1`, … (§4.2 step 6). -/
def sources_list (sources : List String) (params : List (String × String))
    (name : String) : List (String × String) :=
  (sources.enum).foldl (fun d p => dictSet d (name ++ "[" ++ natStr p.1 ++ "]") p.2)
    params

/-- The validation loop of `generate_form_link` over a non-empty `blocked`
list (source lines 516–518): raise on the first entry outside
`sum`/`account`/`comment`. -/
def validate_blocked : List String → Except QiwiError Unit
  | [] => Except.ok ()
  | e :: rest =>
    if e ∈ ["sum", "account", "comment"] then validate_blocked rest
    else Except.error QiwiError.InvalidBlockedField

/-- The `account_type` branch chain of `generate_form_link` (source lines
520–525). -/
def accountTypeStep (pid : String) (account_type : PyAccountType)
    (params : List (String × String)) : List (String × String) :=
  if pid == "99999" && account_type.eqInt 0 then
    dictSet params "extra['accountType']" "phone"
  else if pid == "99999" && account_type.eqInt 1 then
    dictSet params "extra['accountType']" "nickname"
  else if pid == "99999" && account_type.isStr then
    dictSet params "extra['accountType']" account_type.strVal
  else params

/-- The initial parameter dictionary of `generate_form_link` (source lines
507–508): the fixed currency merged with the split amount. -/
def baseParams (amount : ℚ) : List (String × String) :=
  merge_dicts [("currency", "643")] (split_float amount)

/-- The comment branch of `generate_form_link` (source lines 511–512). -/
def commentStep (pid : String) (comment : Option String)
    (params : List (String × String)) : List (String × String) :=
  if pid == "99" && pyTruthy comment then
    dictSet params "extra['comment']" (comment.getD "")
  else params

/-- The account branch of `generate_form_link` (source lines 513–514). -/
def accountStep (account : Option String) (params : List (String × String)) :
    List (String × String) :=
  if pyTruthy account then dictSet params "extra['account']" (account.getD "")
  else params

/-- The blocked-fields branch of `generate_form_link` (source lines 515–519):
only an actual non-empty list is validated and attached. -/
def blockedStep (blocked : PyBlocked) (params : List (String × String)) :
    Except QiwiError (List (String × String)) :=
  match blocked with
  | PyBlocked.pylist entries =>
    if entries.length > 0 then
      match validate_blocked entries with
      | Except.ok _ => Except.ok (sources_list entries params "blocked")
      | Except.error e => Except.error e
    else Except.ok params
  | _ => Except.ok params

/-- The query-parameter dictionary built by `generate_form_link` (source lines
506–526), before URL encoding: currency and the split amount, the ceiling
check, the conditional extra fields, the blocked-field validation and
attachment, and the `account_type` mapping, in source order. (The source
computes the pure amount split before the ceiling check; as the split has no
observable effect, the check is written first here.) -/
def generate_form_params (pid : String) (account : Option String) (amount : ℚ)
    (comment : Option String) (blocked : PyBlocked)
    (account_type : PyAccountType) :
    Except QiwiError (List (String × String)) :=
  if amount > 99999 then Except.error QiwiError.AmountTooLarge
  else
    match blockedStep blocked
        (accountStep account (commentStep pid comment (baseParams amount))) with
    | Except.ok params => Except.ok (accountTypeStep pid account_type params)
    | Except.error e => Except.error e

/-- Characters `urllib.parse.quote_plus` leaves unescaped. -/
def urlSafe (c : Char) : Bool :=
  c.isAlphanum || c == '_' || c == '.' || c == '-' || c == '~'

/-- One hexadecimal digit, upper case. -/
def hexDigit (n : Nat) : Char :=
  if n < 10 then Char.ofNat (48 + n) else Char.ofNat (55 + n)

/-- Percent-encoding of one UTF-8 byte value. -/
def percentByte (b : Nat) : String :=
  String.mk ['%', hexDigit (b / 16 % 16), hexDigit (b % 16)]

/-- The stdlib `urllib.parse.quote_plus`: safe characters kept, space as `+`,
everything else percent-encoded bytewise. -/
def quote_plus (s : String) : String :=
  String.join (s.data.map (fun c =>
    if urlSafe c then String.mk [c]
    else if c == ' ' then "+"
    else String.join (((String.mk [c]).toUTF8.toList).map
      (fun b => percentByte b.toNat))))

/-- The stdlib `urllib.parse.urlencode` over an insertion-ordered dict. -/
def urlencode (params : List (String × String)) : String :=
  String.intercalate "&" (params.map (fun p => quote_plus p.1 ++ "=" ++ quote_plus p.2))

/-- `generate_form_link` (source lines 468–529): the autofilled payment-form
URL, or one of the `ValueError` kinds named by the spec. -/
def generate_form_link (pid : String) (account : Option String) (amount : ℚ)
    (comment : Option String) (blocked : PyBlocked)
    (account_type : PyAccountType) : Except QiwiError String :=
  (generate_form_params pid account amount comment blocked account_type).map
    (fun ps => "https://qiwi.com/payment/form/" ++ pid ++ "?" ++ urlencode ps)

/-- One funding source as `Wallet.balance` inspects it: the currency code and
the raw JSON `balance` sub-dictionary (`None` modelled as `none`), kept as an
association list of numeric fields since the code calls `.get('amount')` on
it. -/
structure Account where
  currency : Int
  balance : Option (List (String × ℚ))
deriving DecidableEq

namespace Wallet

/-- `Wallet.balance` (source lines 102–108): scan the accounts in order,
return the first account's `amount` whose currency matches, whose balance
dict is truthy (present and non-empty) and whose `amount` entry is truthy
(present and nonzero); raise the `NoUsableBalance` `ValueError` after
exhausting the list. -/
def balance : List Account → Int → Except QiwiError ℚ
  | [], _ => Except.error QiwiError.NoUsableBalance
  | a :: rest, currency =>
    if a.currency == currency then
      match a.balance with
      | some d =>
        if !d.isEmpty then
          match dictGet d "amount" with
          | some x => if x != 0 then Except.ok x else balance rest currency
          | none => balance rest currency
        else balance rest currency
      | none => balance rest currency
    else balance rest currency

end Wallet

/-- Modelled from the spec: `types.Identity.de_json` (the module
`pyqiwi/types.py` is not among the source files). The identity entity echoes
back personal fields of the identification response, "including a
caller-supplied field not returned by the service (national tax id)" stored
under the `base_inn` key (§3); a missing or null key decodes to the explicit
absent value. -/
structure Identity where
  birth_date : Option String
  first_name : Option String
  middle_name : Option String
  last_name : Option String
  passport : Option String
  inn : Option String
  base_inn : Option String
deriving DecidableEq

/-- Modelled from the spec: the decoding rule of `types.Identity.de_json`
over a JSON mapping whose relevant values are strings or null. -/
def Identity.de_json (data : List (String × Option String)) : Identity :=
  { birth_date := (dictGet data "birthDate").join
    first_name := (dictGet data "firstName").join
    middle_name := (dictGet data "middleName").join
    last_name := (dictGet data "lastName").join
    passport := (dictGet data "passport").join
    inn := (dictGet data "inn").join
    base_inn := (dictGet data "base_inn").join }

namespace Wallet

/-- `Wallet.identification` (source lines 327–330): inject the caller-supplied
`inn` into the service's JSON response under the key `base_inn`, then decode
the result. -/
def identification (result_json : List (String × Option String))
    (inn : Option String) : Identity :=
  Identity.de_json (dictSet result_json "base_inn" inn)

/-- The wallet-number normalization of `Wallet.__init__` (source lines
429–433), on the string's characters: `number.replace('+', '')` removes every
`'+'` character, then a leading `'8'` is replaced by `'7'`. -/
def normalizeNumber (number : List Char) : List Char :=
  match number.filter (fun c => c != '+') with
  | c :: rest => if c = '8' then '7' :: rest else c :: rest
  | [] => []

/-- The `isinstance(number, str)` branch of `Wallet.__init__` (source lines
430–433): only a string number is normalized and stored by this branch
(`none` models a non-string `number`, which the branch leaves untouched). -/
def initNumber : Option (List Char) → Option (List Char)
  | some s => some (normalizeNumber s)
  | none => none

end Wallet

/-! Lemmas about the dictionary model. -/

theorem dictGet_cons {α : Type} (p : String × α) (d : List (String × α)) (k : String) :
    dictGet (p :: d) k = if p.1 == k then some p.2 else dictGet d k := by
  by_cases h : p.1 = k
  · simp [dictGet, List.find?, h]
  · have hb : (p.1 == k) = false := by simp [h]
    simp [dictGet, List.find?, hb, h]

theorem dictGet_dictSet_self {α : Type} (d : List (String × α)) (k : String) (v : α) :
    dictGet (dictSet d k v) k = some v := by
  induction d with
  | nil => simp [dictSet, dictGet, List.find?]
  | cons p rest ih =>
    by_cases h : p.1 = k
    · simp [dictSet, h, dictGet_cons]
    · simp [dictSet, h, dictGet_cons, ih]

theorem dictGet_dictSet_ne {α : Type} (d : List (String × α)) {k k' : String} (v : α)
    (h : k' ≠ k) : dictGet (dictSet d k v) k' = dictGet d k' := by
  have hne : k ≠ k' := fun he => h he.symm
  have hb : (k == k') = false := by simp [hne]
  induction d with
  | nil => simp [dictSet, dictGet, List.find?, hb]
  | cons p rest ih =>
    by_cases hp : p.1 = k
    · simp [dictSet, hp, dictGet_cons, hne]
    · simp [dictSet, hp, dictGet_cons, ih]

theorem mem_dictSet {α : Type} {d : List (String × α)} {k : String} {v : α}
    {p : String × α} (h : p ∈ dictSet d k v) : p.1 = k ∨ p ∈ d := by
  induction d with
  | nil =>
    simp [dictSet] at h
    exact Or.inl (by simp [h])
  | cons q rest ih =>
    by_cases hq : q.1 = k
    · simp [dictSet, hq] at h
      rcases h with h | h
      · exact Or.inl (by simp [h])
      · exact Or.inr (List.mem_cons_of_mem _ h)
    · simp [dictSet, hq] at h
      rcases h with h | h
      · exact Or.inr (by simp [h])
      · rcases ih h with h' | h'
        · exact Or.inl h'
        · exact Or.inr (List.mem_cons_of_mem _ h')

/-! Injectivity of the decimal index rendering, and of the repeated
query-parameter key shape it produces. -/

theorem digitChar_inj_lt : ∀ a, a < 10 → ∀ b, b < 10 →
    Nat.digitChar a = Nat.digitChar b → a = b := by decide

theorem map_digitChar_inj : ∀ l1 l2 : List ℕ, (∀ d ∈ l1, d < 10) →
    (∀ d ∈ l2, d < 10) → l1.map Nat.digitChar = l2.map Nat.digitChar → l1 = l2 := by
  intro l1
  induction l1 with
  | nil =>
    intro l2 _ _ h
    cases l2 with
    | nil => rfl
    | cons b t => simp at h
  | cons a t ih =>
    intro l2 h1 h2 h
    cases l2 with
    | nil => simp at h
    | cons b t2 =>
      simp only [List.map_cons, List.cons.injEq] at h
      have ha : a = b :=
        digitChar_inj_lt a (h1 a (List.mem_cons_self a t)) b
          (h2 b (List.mem_cons_self b t2)) h.1
      have ht : t = t2 :=
        ih t2 (fun d hd => h1 d (List.mem_cons_of_mem _ hd))
          (fun d hd => h2 d (List.mem_cons_of_mem _ hd)) h.2
      rw [ha, ht]

theorem natStr_ne_zero_str {n : ℕ} (hn : n ≠ 0) : natStr n ≠ "0" := by
  intro h
  have hd : Nat.digits 10 n ≠ [] := Nat.digits_ne_nil_iff_ne_zero.mpr hn
  unfold natStr at h
  rw [if_neg hn] at h
  have hdata : ((Nat.digits 10 n).map Nat.digitChar).reverse = ['0'] := by
    have := congrArg String.data h
    simpa using this
  have hmap : (Nat.digits 10 n).map Nat.digitChar = ['0'] := by
    have := congrArg List.reverse hdata
    simpa using this
  cases hds : Nat.digits 10 n with
  | nil => exact hd hds
  | cons d rest =>
    rw [hds] at hmap
    simp only [List.map_cons, List.cons.injEq] at hmap
    have hlt : d < 10 :=
      Nat.digits_lt_base (by norm_num) (hds ▸ List.mem_cons_self d rest)
    have hd0 : d = 0 := digitChar_inj_lt d hlt 0 (by norm_num) hmap.1
    have hrest : rest = [] := List.map_eq_nil_iff.mp hmap.2
    have : n = 0 := by
      have hof := Nat.ofDigits_digits 10 n
      rw [hds, hd0, hrest] at hof
      simpa [Nat.ofDigits] using hof.symm
    exact hn this

theorem natStr_injective : Function.Injective natStr := by
  intro m n h
  by_cases hm : m = 0 <;> by_cases hn : n = 0
  · rw [hm, hn]
  · exact absurd h.symm (by simpa [natStr, hm] using natStr_ne_zero_str hn)
  · exact absurd h (by simpa [natStr, hn] using natStr_ne_zero_str hm)
  · unfold natStr at h
    rw [if_neg hm, if_neg hn] at h
    have hlists : ((Nat.digits 10 m).map Nat.digitChar).reverse =
        ((Nat.digits 10 n).map Nat.digitChar).reverse := by injection h
    have hmap := List.reverse_injective hlists
    have hdig := map_digitChar_inj _ _
      (fun d hd => Nat.digits_lt_base (by norm_num) hd)
      (fun d hd => Nat.digits_lt_base (by norm_num) hd) hmap
    exact Nat.digits.injective 10 hdig

/-- The key of the i-th repeated `blocked` query parameter. -/
def blockedKey (i : ℕ) : String := "blocked" ++ "[" ++ natStr i ++ "]"

theorem nameKey_inj (name : String) {i j : ℕ}
    (h : name ++ "[" ++ natStr i ++ "]" = name ++ "[" ++ natStr j ++ "]") : i = j := by
  have hdata := congrArg String.data h
  simp only [String.data_append] at hdata
  have h1 := List.append_cancel_right hdata
  have h2 := List.append_cancel_left h1
  have : natStr i = natStr j := by
    have := congrArg String.mk h2
    simpa using this
  exact natStr_injective this

theorem blockedKey_inj {i j : ℕ} (h : blockedKey i = blockedKey j) : i = j :=
  nameKey_inj "blocked" h

/-- The head character distinguishes the `blocked[i]` keys from every fixed
key the encoder uses. -/
theorem blockedKey_head (i : ℕ) : (blockedKey i).data.head? = some 'b' := rfl

theorem ne_of_head_ne {s t : String} (h : s.data.head? ≠ t.data.head?) : s ≠ t :=
  fun he => h (he ▸ rfl)

/-! Lemmas about the parameter-building steps. -/

theorem baseParams_eq (amount : ℚ) :
    baseParams amount =
      dictSet (dictSet [("currency", "643")] "amount" (toString ⌊amount⌋))
        "amountFraction" (toString (⌊amount * 100⌋ - 100 * ⌊amount⌋)) := rfl

theorem dictGet_baseParams_amount (amount : ℚ) :
    dictGet (baseParams amount) "amount" = some (toString ⌊amount⌋) := by
  rw [baseParams_eq, dictGet_dictSet_ne _ _ (by decide)]
  exact dictGet_dictSet_self _ _ _

theorem dictGet_baseParams_fraction (amount : ℚ) :
    dictGet (baseParams amount) "amountFraction" =
      some (toString (⌊amount * 100⌋ - 100 * ⌊amount⌋)) := by
  rw [baseParams_eq]
  exact dictGet_dictSet_self _ _ _

theorem dictGet_baseParams_other (amount : ℚ) {k : String} (h1 : k ≠ "amount")
    (h2 : k ≠ "amountFraction") (h3 : k ≠ "currency") :
    dictGet (baseParams amount) k = none := by
  rw [baseParams_eq, dictGet_dictSet_ne _ _ h2, dictGet_dictSet_ne _ _ h1]
  have hcur : ¬ ("currency" : String) = k := fun he => h3 he.symm
  have hb : (("currency" : String) == k) = false := by simp [hcur]
  simp [dictGet, List.find?, hb]

theorem dictGet_commentStep_self (pid : String) (comment : Option String)
    (params : List (String × String)) :
    dictGet (commentStep pid comment params) "extra['comment']" =
      if pid == "99" && pyTruthy comment then some (comment.getD "")
      else dictGet params "extra['comment']" := by
  by_cases hb : (pid == "99" && pyTruthy comment) = true
  · simp [commentStep, hb, dictGet_dictSet_self]
  · simp [commentStep, hb]

theorem dictGet_commentStep_ne (pid : String) (comment : Option String)
    (params : List (String × String)) {k : String} (h : k ≠ "extra['comment']") :
    dictGet (commentStep pid comment params) k = dictGet params k := by
  by_cases hb : (pid == "99" && pyTruthy comment) = true
  · simp [commentStep, hb, dictGet_dictSet_ne _ _ h]
  · simp [commentStep, hb]

theorem dictGet_accountStep_self (account : Option String)
    (params : List (String × String)) :
    dictGet (accountStep account params) "extra['account']" =
      if pyTruthy account then some (account.getD "")
      else dictGet params "extra['account']" := by
  by_cases hb : pyTruthy account = true
  · simp [accountStep, hb, dictGet_dictSet_self]
  · simp [accountStep, hb]

theorem dictGet_accountStep_ne (account : Option String)
    (params : List (String × String)) {k : String} (h : k ≠ "extra['account']") :
    dictGet (accountStep account params) k = dictGet params k := by
  by_cases hb : pyTruthy account = true
  · simp [accountStep, hb, dictGet_dictSet_ne _ _ h]
  · simp [accountStep, hb]

theorem dictGet_accountTypeStep_ne (pid : String) (account_type : PyAccountType)
    (params : List (String × String)) {k : String} (h : k ≠ "extra['accountType']") :
    dictGet (accountTypeStep pid account_type params) k = dictGet params k := by
  unfold accountTypeStep
  split
  · exact dictGet_dictSet_ne _ _ h
  · split
    · exact dictGet_dictSet_ne _ _ h
    · split
      · exact dictGet_dictSet_ne _ _ h
      · rfl

theorem dictGet_accountTypeStep_self (pid : String) (account_type : PyAccountType)
    (params : List (String × String))
    (hnone : dictGet params "extra['accountType']" = none) :
    dictGet (accountTypeStep pid account_type params) "extra['accountType']" =
      if pid = "99999" then
        (match account_type with
         | PyAccountType.pyint 0 => some "phone"
         | PyAccountType.pyint 1 => some "nickname"
         | PyAccountType.pystr s => some s
         | _ => none)
      else none := by
  by_cases hp : pid = "99999"
  · subst hp
    cases account_type with
    | pyint n =>
      by_cases h0 : n = 0
      · subst h0
        simp [accountTypeStep, PyAccountType.eqInt, dictGet_dictSet_self]
      · by_cases h1 : n = 1
        · subst h1
          simp [accountTypeStep, PyAccountType.eqInt, dictGet_dictSet_self]
        · have hmatch :
              (match PyAccountType.pyint n with
               | PyAccountType.pyint 0 => some "phone"
               | PyAccountType.pyint 1 => some "nickname"
               | PyAccountType.pystr s => some s
               | _ => (none : Option String)) = none := by
            rcases n with m | m
            · rcases m with _ | m
              · exact absurd rfl h0
              · rcases m with _ | m
                · exact absurd rfl h1
                · rfl
            · rfl
          simp [accountTypeStep, PyAccountType.eqInt, PyAccountType.isStr, h0, h1,
            hnone, hmatch]
    | pystr s =>
      simp [accountTypeStep, PyAccountType.eqInt, PyAccountType.isStr,
        PyAccountType.strVal, dictGet_dictSet_self]
    | pynone =>
      simp [accountTypeStep, PyAccountType.eqInt, PyAccountType.isStr, hnone]
  · have hb : (pid == "99999") = false := by simp [hp]
    simp [accountTypeStep, hb, hnone, hp]

theorem accountTypeStep_pynone (pid : String) (params : List (String × String)) :
    accountTypeStep pid PyAccountType.pynone params = params := by
  simp [accountTypeStep, PyAccountType.eqInt, PyAccountType.isStr]

/-! Lemmas about the blocked-fields step. -/

theorem blockedStep_not_list {blocked : PyBlocked} (h : blocked.isPyList = false)
    (params : List (String × String)) :
    blockedStep blocked params = Except.ok params := by
  cases blocked with
  | pylist entries => exact absurd h (by simp [PyBlocked.isPyList])
  | pytuple entries => rfl
  | pyset entries => rfl
  | pystr s => rfl
  | pynone => rfl

theorem validate_blocked_ok {es : List String}
    (h : ∀ e ∈ es, e ∈ ["sum", "account", "comment"]) :
    validate_blocked es = Except.ok () := by
  induction es with
  | nil => rfl
  | cons e rest ih =>
    simp [validate_blocked, h e (List.mem_cons_self e rest),
      ih (fun x hx => h x (List.mem_cons_of_mem _ hx))]

theorem validate_blocked_error {es : List String}
    (h : ∃ e ∈ es, e ∉ ["sum", "account", "comment"]) :
    validate_blocked es = Except.error QiwiError.InvalidBlockedField := by
  induction es with
  | nil =>
    obtain ⟨e, he, _⟩ := h
    exact absurd he (List.not_mem_nil e)
  | cons a rest ih =>
    by_cases ha : a ∈ ["sum", "account", "comment"]
    · obtain ⟨e, he, hbad⟩ := h
      rcases List.mem_cons.mp he with rfl | he'
      · exact absurd ha hbad
      · simp [validate_blocked, ha, ih ⟨e, he', hbad⟩]
    · simp [validate_blocked, ha]

/-! The repeated `blocked[i]` attachment, via an index-explicit recursion. -/

def sourcesAux (name : String) : List String → ℕ → List (String × String) →
    List (String × String)
  | [], _, params => params
  | e :: rest, n, params =>
    sourcesAux name rest (n + 1) (dictSet params (name ++ "[" ++ natStr n ++ "]") e)

theorem sources_list_eq_aux (name : String) :
    ∀ (es : List String) (n : ℕ) (params : List (String × String)),
      (es.enumFrom n).foldl
          (fun d p => dictSet d (name ++ "[" ++ natStr p.1 ++ "]") p.2) params
        = sourcesAux name es n params := by
  intro es
  induction es with
  | nil => intro n params; rfl
  | cons e rest ih =>
    intro n params
    exact ih (n + 1) (dictSet params (name ++ "[" ++ natStr n ++ "]") e)

theorem sources_list_eq (es : List String) (params : List (String × String))
    (name : String) : sources_list es params name = sourcesAux name es 0 params :=
  sources_list_eq_aux name es 0 params

theorem dictGet_sourcesAux_lt (name : String) {m : ℕ} :
    ∀ (es : List String) (n : ℕ) (params : List (String × String)), m < n →
      dictGet (sourcesAux name es n params) (name ++ "[" ++ natStr m ++ "]")
        = dictGet params (name ++ "[" ++ natStr m ++ "]") := by
  intro es
  induction es with
  | nil => intro n params _; rfl
  | cons e rest ih =>
    intro n params hmn
    have hkey : name ++ "[" ++ natStr m ++ "]" ≠ name ++ "[" ++ natStr n ++ "]" :=
      fun he => absurd (nameKey_inj name he) (Nat.ne_of_lt hmn)
    rw [show sourcesAux name (e :: rest) n params
        = sourcesAux name rest (n + 1)
            (dictSet params (name ++ "[" ++ natStr n ++ "]") e) from rfl,
      ih (n + 1) _ (Nat.lt_succ_of_lt hmn)]
    exact dictGet_dictSet_ne _ _ hkey

theorem dictGet_sourcesAux_at (name : String) :
    ∀ (es : List String) (n : ℕ) (params : List (String × String)) (i : ℕ)
      (h : i < es.length),
      dictGet (sourcesAux name es n params) (name ++ "[" ++ natStr (n + i) ++ "]")
        = some (es.get ⟨i, h⟩) := by
  intro es
  induction es with
  | nil => intro n params i h; exact absurd h (by simp)
  | cons e rest ih =>
    intro n params i h
    cases i with
    | zero =>
      rw [show sourcesAux name (e :: rest) n params
          = sourcesAux name rest (n + 1)
              (dictSet params (name ++ "[" ++ natStr n ++ "]") e) from rfl]
      simp only [Nat.add_zero]
      rw [dictGet_sourcesAux_lt name rest (n + 1) _ (Nat.lt_succ_self n)]
      exact dictGet_dictSet_self _ _ _
    | succ j =>
      have hj : j < rest.length := by simpa using Nat.lt_of_succ_lt_succ h
      have := ih (n + 1) (dictSet params (name ++ "[" ++ natStr n ++ "]") e) j hj
      rw [show n + (j + 1) = (n + 1) + j from by omega]
      exact this

theorem dictGet_sources_list_at (es : List String)
    (params : List (String × String)) (i : ℕ) (h : i < es.length) :
    dictGet (sources_list es params "blocked") (blockedKey i)
      = some (es.get ⟨i, h⟩) := by
  rw [sources_list_eq]
  have := dictGet_sourcesAux_at "blocked" es 0 params i h
  rw [Nat.zero_add] at this
  exact this

/-! Assembly of the encoder's success case. -/

theorem generate_form_params_ok_of (pid : String) (account : Option String)
    (amount : ℚ) (comment : Option String) (blocked : PyBlocked)
    (account_type : PyAccountType) (q : List (String × String))
    (hle : amount ≤ 99999)
    (hb : blockedStep blocked
        (accountStep account (commentStep pid comment (baseParams amount)))
      = Except.ok q) :
    generate_form_params pid account amount comment blocked account_type
      = Except.ok (accountTypeStep pid account_type q) := by
  unfold generate_form_params
  rw [if_neg (not_lt.mpr hle), hb]

theorem blockedKey_ne (i : ℕ) (t : String) (h : t.data.head? ≠ some 'b') :
    blockedKey i ≠ t :=
  fun he => h (by rw [← he, blockedKey_head])

/-! The balance lookup, characterized through a qualifying predicate. -/

/-- An account qualifies for the balance lookup at `currency` when its
currency matches and its balance dictionary carries a nonzero `amount`. -/
def qualifies (currency : Int) (a : Account) : Bool :=
  a.currency == currency &&
    (match a.balance with
     | some d =>
       (match dictGet d "amount" with
        | some x => x != 0
        | none => false)
     | none => false)

/-- The `amount` entry of an account's balance dictionary (0 when absent;
only used on qualifying accounts, where it is present and nonzero). -/
def balanceAmount (a : Account) : ℚ :=
  (dictGet (a.balance.getD []) "amount").getD 0

theorem balance_cons (a : Account) (rest : List Account) (currency : Int) :
    Wallet.balance (a :: rest) currency =
      if qualifies currency a then Except.ok (balanceAmount a)
      else Wallet.balance rest currency := by
  by_cases hc : (a.currency == currency) = true
  · cases hb : a.balance with
    | none => simp [Wallet.balance, qualifies, hc, hb]
    | some d =>
      cases hd : dictGet d "amount" with
      | none =>
        by_cases hde : d.isEmpty = true
        · simp [Wallet.balance, qualifies, hc, hb, hde, hd]
        · simp [Wallet.balance, qualifies, hc, hb, hde, hd]
      | some x =>
        have hde : d.isEmpty = false := by
          cases d with
          | nil => simp [dictGet, List.find?] at hd
          | cons p t => rfl
        by_cases hx : (x != 0) = true
        · simp [Wallet.balance, qualifies, balanceAmount, hc, hb, hde, hd, hx]
        · simp [Wallet.balance, qualifies, hc, hb, hde, hd, hx]
  · simp [Wallet.balance, qualifies, hc]

/-! The claims. -/

/-- C1: for every amount `a` with `0 < a ≤ 99999`, `generate_form_link`
succeeds (with the default `blocked`/`account_type`), and the URL's query
parameters contain an integer-part `amount` entry and a fractional-cents
`amountFraction` entry whose combined value in cents is `a * 100` rounded
down on excess precision (for positive amounts, rounding down and truncation
toward zero coincide, so the combined cents value is `⌊a * 100⌋`). -/
theorem generate_form_link_amount_split (pid : String)
    (account comment : Option String) (amount : ℚ) (hpos : 0 < amount)
    (hle : amount ≤ 99999) :
    ∃ ps, generate_form_params pid account amount comment PyBlocked.pynone
        PyAccountType.pynone = Except.ok ps ∧
      generate_form_link pid account amount comment PyBlocked.pynone
          PyAccountType.pynone
        = Except.ok ("https://qiwi.com/payment/form/" ++ pid ++ "?" ++ urlencode ps) ∧
      ∃ i c : ℤ, dictGet ps "amount" = some (toString i) ∧
        dictGet ps "amountFraction" = some (toString c) ∧
        i = ⌊amount⌋ ∧ 100 * i + c = ⌊amount * 100⌋ ∧ 0 ≤ c ∧ c < 100 := by
  have hok := generate_form_params_ok_of pid account amount comment
    PyBlocked.pynone PyAccountType.pynone _ hle rfl
  refine ⟨_, hok, ?_, ?_⟩
  · unfold generate_form_link
    rw [hok]
    rfl
  · refine ⟨⌊amount⌋, ⌊amount * 100⌋ - 100 * ⌊amount⌋, ?_, ?_, rfl, by ring, ?_, ?_⟩
    · rw [accountTypeStep_pynone, dictGet_accountStep_ne _ _ (by decide),
        dictGet_commentStep_ne _ _ _ (by decide)]
      exact dictGet_baseParams_amount amount
    · rw [accountTypeStep_pynone, dictGet_accountStep_ne _ _ (by decide),
        dictGet_commentStep_ne _ _ _ (by decide)]
      exact dictGet_baseParams_fraction amount
    · have h1 : (100 : ℤ) * ⌊amount⌋ ≤ ⌊amount * 100⌋ := by
        apply Int.le_floor.mpr
        push_cast
        nlinarith [Int.floor_le amount]
      omega
    · have h2 : ⌊amount * 100⌋ < 100 * ⌊amount⌋ + 100 := by
        apply Int.floor_lt.mpr
        push_cast
        nlinarith [Int.lt_floor_add_one amount]
      omega

/-- C1 witness: the spec's scenario, amount 100.5 with pid "99". -/
theorem generate_form_link_amount_split_witness :
    ∃ ps, generate_form_params "99" (some "79991234567") (201 / 2 : ℚ)
        (some "hi") PyBlocked.pynone PyAccountType.pynone = Except.ok ps ∧
      generate_form_link "99" (some "79991234567") (201 / 2 : ℚ) (some "hi")
          PyBlocked.pynone PyAccountType.pynone
        = Except.ok ("https://qiwi.com/payment/form/" ++ "99" ++ "?" ++ urlencode ps) ∧
      ∃ i c : ℤ, dictGet ps "amount" = some (toString i) ∧
        dictGet ps "amountFraction" = some (toString c) ∧
        i = ⌊(201 / 2 : ℚ)⌋ ∧ 100 * i + c = ⌊(201 / 2 : ℚ) * 100⌋ ∧ 0 ≤ c ∧ c < 100 :=
  generate_form_link_amount_split "99" (some "79991234567") (some "hi")
    (201 / 2 : ℚ) (by norm_num) (by norm_num)

/-- C2: for every call with `amount > 99999`, `generate_form_link` fails with
the `AmountTooLarge` `ValueError` and returns no URL, whatever the other
arguments are (the ceiling check precedes every other raise and any result). -/
theorem generate_form_link_amount_too_large (pid : String)
    (account comment : Option String) (amount : ℚ) (blocked : PyBlocked)
    (account_type : PyAccountType) (hgt : amount > 99999) :
    generate_form_link pid account amount comment blocked account_type
      = Except.error QiwiError.AmountTooLarge := by
  unfold generate_form_link generate_form_params
  rw [if_pos hgt]
  rfl

/-- C2 witness: the spec's scenario, amount 100000. -/
theorem generate_form_link_amount_too_large_witness :
    generate_form_link "1" none (100000 : ℚ) none PyBlocked.pynone
        PyAccountType.pynone = Except.error QiwiError.AmountTooLarge :=
  generate_form_link_amount_too_large "1" none none (100000 : ℚ)
    PyBlocked.pynone PyAccountType.pynone (by norm_num)

/-- C4: the comment is attached as `extra['comment']` exactly when the
provider id is the wallet-to-wallet code "99" and a (truthy) comment is
supplied, and is dropped for every other provider id; a supplied (truthy)
account is attached as `extra['account']` regardless of the provider id. -/
theorem generate_form_comment_account_fields (pid : String)
    (account comment : Option String) (amount : ℚ)
    (account_type : PyAccountType) (hle : amount ≤ 99999) :
    ∃ ps, generate_form_params pid account amount comment PyBlocked.pynone
        account_type = Except.ok ps ∧
      dictGet ps "extra['comment']"
        = (if pid == "99" && pyTruthy comment then some (comment.getD "")
           else none) ∧
      dictGet ps "extra['account']"
        = (if pyTruthy account then some (account.getD "") else none) := by
  refine ⟨_, generate_form_params_ok_of pid account amount comment
    PyBlocked.pynone account_type _ hle rfl, ?_, ?_⟩
  · rw [dictGet_accountTypeStep_ne _ _ _ (by decide),
      dictGet_accountStep_ne _ _ (by decide), dictGet_commentStep_self,
      dictGet_baseParams_other amount (by decide) (by decide) (by decide)]
  · rw [dictGet_accountTypeStep_ne _ _ _ (by decide), dictGet_accountStep_self,
      dictGet_commentStep_ne _ _ _ (by decide),
      dictGet_baseParams_other amount (by decide) (by decide) (by decide)]

/-- C4 witness: pid "99" with a comment attaches it; pid "1" would not, and
the account is attached either way — instantiated at pid "99". -/
theorem generate_form_comment_account_fields_witness :
    ∃ ps, generate_form_params "99" (some "79991234567") (10 : ℚ) (some "hi")
        PyBlocked.pynone PyAccountType.pynone = Except.ok ps ∧
      dictGet ps "extra['comment']"
        = (if ("99" : String) == "99" && pyTruthy (some "hi") then
             some ((some "hi").getD "") else none) ∧
      dictGet ps "extra['account']"
        = (if pyTruthy (some "79991234567") then
             some ((some "79991234567").getD "") else none) :=
  generate_form_comment_account_fields "99" (some "79991234567") (some "hi")
    (10 : ℚ) PyAccountType.pynone (by norm_num)

/-- C5: for pid "99999", `account_type` 0 maps to the extra field value
"phone", 1 to "nickname", and any string value passes through verbatim (any
other value attaches nothing); for every other pid no `extra['accountType']`
field is attached regardless of `account_type`. -/
theorem generate_form_account_type_mapping (pid : String)
    (account comment : Option String) (amount : ℚ)
    (account_type : PyAccountType) (hle : amount ≤ 99999) :
    ∃ ps, generate_form_params pid account amount comment PyBlocked.pynone
        account_type = Except.ok ps ∧
      dictGet ps "extra['accountType']"
        = (if pid = "99999" then
             (match account_type with
              | PyAccountType.pyint 0 => some "phone"
              | PyAccountType.pyint 1 => some "nickname"
              | PyAccountType.pystr s => some s
              | _ => none)
           else none) := by
  refine ⟨_, generate_form_params_ok_of pid account amount comment
    PyBlocked.pynone account_type _ hle rfl, ?_⟩
  exact dictGet_accountTypeStep_self pid account_type _
    (by
      rw [dictGet_accountStep_ne _ _ (by decide),
        dictGet_commentStep_ne _ _ _ (by decide)]
      exact dictGet_baseParams_other amount (by decide) (by decide) (by decide))

/-- C5 witness: pid "99999" with `account_type = 1` maps to "nickname". -/
theorem generate_form_account_type_mapping_witness :
    ∃ ps, generate_form_params "99999" none (10 : ℚ) none PyBlocked.pynone
        (PyAccountType.pyint 1) = Except.ok ps ∧
      dictGet ps "extra['accountType']"
        = (if ("99999" : String) = "99999" then
             (match PyAccountType.pyint 1 with
              | PyAccountType.pyint 0 => some "phone"
              | PyAccountType.pyint 1 => some "nickname"
              | PyAccountType.pystr s => some s
              | _ => none)
           else none) :=
  generate_form_account_type_mapping "99999" none none (10 : ℚ)
    (PyAccountType.pyint 1) (by norm_num)

/-- C3: for a non-empty `blocked` list, the call fails with
`InvalidBlockedField` when some entry lies outside `{sum, account, comment}`;
when every entry is drawn from that set, the call succeeds and entry `i` is
attached under the repeated/list-style query key `blocked[i]`. -/
theorem generate_form_blocked_validation (pid : String)
    (account comment : Option String) (amount : ℚ)
    (account_type : PyAccountType) (entries : List String)
    (hle : amount ≤ 99999) (hne : entries ≠ []) :
    ((∃ e ∈ entries, e ∉ ["sum", "account", "comment"]) →
      generate_form_params pid account amount comment
          (PyBlocked.pylist entries) account_type
        = Except.error QiwiError.InvalidBlockedField) ∧
    ((∀ e ∈ entries, e ∈ ["sum", "account", "comment"]) →
      ∃ ps, generate_form_params pid account amount comment
          (PyBlocked.pylist entries) account_type = Except.ok ps ∧
        ∀ i (h : i < entries.length),
          dictGet ps (blockedKey i) = some (entries.get ⟨i, h⟩)) := by
  have hlen : entries.length > 0 := List.length_pos.mpr hne
  constructor
  · intro hbad
    unfold generate_form_params
    rw [if_neg (not_lt.mpr hle)]
    simp [blockedStep, hlen, validate_blocked_error hbad]
  · intro hgood
    have hb : blockedStep (PyBlocked.pylist entries)
        (accountStep account (commentStep pid comment (baseParams amount)))
      = Except.ok (sources_list entries
          (accountStep account (commentStep pid comment (baseParams amount)))
          "blocked") := by
      simp [blockedStep, hlen, validate_blocked_ok hgood]
    refine ⟨_, generate_form_params_ok_of pid account amount comment
      (PyBlocked.pylist entries) account_type _ hle hb, ?_⟩
    intro i h
    rw [dictGet_accountTypeStep_ne _ _ _ (blockedKey_ne i _ (by decide))]
    exact dictGet_sources_list_at entries _ i h

/-- C3 witness: `["sum", "bogus"]` is rejected and `["sum", "comment"]` is
attached as `blocked[0]`, `blocked[1]`. -/
theorem generate_form_blocked_validation_witness :
    (generate_form_params "1" none (10 : ℚ) none
        (PyBlocked.pylist ["sum", "bogus"]) PyAccountType.pynone
      = Except.error QiwiError.InvalidBlockedField) ∧
    (∃ ps, generate_form_params "1" none (10 : ℚ) none
        (PyBlocked.pylist ["sum", "comment"]) PyAccountType.pynone
      = Except.ok ps ∧
      ∀ i (h : i < (["sum", "comment"] : List String).length),
        dictGet ps (blockedKey i)
          = some ((["sum", "comment"] : List String).get ⟨i, h⟩)) :=
  ⟨(generate_form_blocked_validation "1" none none (10 : ℚ)
      PyAccountType.pynone ["sum", "bogus"] (by norm_num) (by decide)).1
      ⟨"bogus", by decide, by decide⟩,
   (generate_form_blocked_validation "1" none none (10 : ℚ)
      PyAccountType.pynone ["sum", "comment"] (by norm_num) (by decide)).2
      (by decide)⟩

/-- C6: the balance lookup scans the accounts in order and returns the first
account's amount whose currency matches and whose balance carries a nonzero
amount; when no account in the whole list qualifies — in particular when a
matching-currency account has a zero or absent balance amount — it raises
`NoUsableBalance` rather than returning zero. -/
theorem wallet_balance_first_usable (accounts : List Account) (currency : Int) :
    Wallet.balance accounts currency
      = (match accounts.find? (qualifies currency) with
         | some a => Except.ok (balanceAmount a)
         | none => Except.error QiwiError.NoUsableBalance) := by
  induction accounts with
  | nil => rfl
  | cons a rest ih =>
    by_cases hq : qualifies currency a = true
    · rw [List.find?_cons_of_pos _ hq, balance_cons, if_pos hq]
    · rw [List.find?_cons_of_neg _ hq, balance_cons, if_neg hq, ih]

/-- C7: `Wallet.identification` injects the caller-supplied national tax id
into the service's JSON response under the key `base_inn` before decoding,
so the resulting `Identity` carries the caller-supplied value even though the
service does not return it (any `base_inn` the response did carry is
overwritten). -/
theorem wallet_identification_base_inn
    (result_json : List (String × Option String)) (inn : Option String) :
    (Wallet.identification result_json inn).base_inn = inn := by
  unfold Wallet.identification Identity.de_json
  simp [dictGet_dictSet_self]

/-- C8: when the `blocked` argument is not a Python `list` (a tuple, set,
string or `None`), its entries are neither validated nor attached: the call
never raises `InvalidBlockedField` and the resulting parameters carry no
`blocked[i]` key, even for non-empty values with names outside
`{sum, account, comment}`. -/
theorem generate_form_blocked_not_list (pid : String)
    (account comment : Option String) (amount : ℚ) (blocked : PyBlocked)
    (account_type : PyAccountType) (hle : amount ≤ 99999)
    (hnl : blocked.isPyList = false) :
    ∃ ps, generate_form_params pid account amount comment blocked account_type
        = Except.ok ps ∧
      ∀ i : ℕ, dictGet ps (blockedKey i) = none := by
  refine ⟨_, generate_form_params_ok_of pid account amount comment blocked
    account_type _ hle (blockedStep_not_list hnl _), ?_⟩
  intro i
  rw [dictGet_accountTypeStep_ne _ _ _ (blockedKey_ne i _ (by decide)),
    dictGet_accountStep_ne _ _ (blockedKey_ne i _ (by decide)),
    dictGet_commentStep_ne _ _ _ (blockedKey_ne i _ (by decide))]
  exact dictGet_baseParams_other amount (blockedKey_ne i _ (by decide))
    (blockedKey_ne i _ (by decide)) (blockedKey_ne i _ (by decide))

/-- C8 witness: a set-typed `blocked` holding a name outside the allowed set
is ignored, not rejected. -/
theorem generate_form_blocked_not_list_witness :
    ∃ ps, generate_form_params "5" none (10 : ℚ) none
        (PyBlocked.pyset ["bogus"]) (PyAccountType.pystr "x") = Except.ok ps ∧
      ∀ i : ℕ, dictGet ps (blockedKey i) = none :=
  generate_form_blocked_not_list "5" none none (10 : ℚ)
    (PyBlocked.pyset ["bogus"]) (PyAccountType.pystr "x") (by norm_num) rfl

/-- C9: with pid "99", an empty-string comment attaches no `extra['comment']`
parameter, and an empty-string (or otherwise falsy) account attaches no
`extra['account']` parameter: both presence checks treat falsy values as
absent. -/
theorem generate_form_falsy_fields (account : Option String) (amount : ℚ)
    (account_type : PyAccountType) (hle : amount ≤ 99999)
    (hacc : pyTruthy account = false) :
    ∃ ps, generate_form_params "99" account amount (some "") PyBlocked.pynone
        account_type = Except.ok ps ∧
      dictGet ps "extra['comment']" = none ∧
      dictGet ps "extra['account']" = none := by
  refine ⟨_, generate_form_params_ok_of "99" account amount (some "")
    PyBlocked.pynone account_type _ hle rfl, ?_, ?_⟩
  · rw [dictGet_accountTypeStep_ne _ _ _ (by decide),
      dictGet_accountStep_ne _ _ (by decide), dictGet_commentStep_self]
    have hcond : (("99" : String) == "99" && pyTruthy (some "")) = false := by decide
    rw [hcond]
    simp only [Bool.false_eq_true, if_false]
    exact dictGet_baseParams_other amount (by decide) (by decide) (by decide)
  · rw [dictGet_accountTypeStep_ne _ _ _ (by decide), dictGet_accountStep_self,
      hacc]
    simp only [Bool.false_eq_true, if_false]
    rw [dictGet_commentStep_ne _ _ _ (by decide)]
    exact dictGet_baseParams_other amount (by decide) (by decide) (by decide)

/-- C9 witness: empty-string comment and account at pid "99". -/
theorem generate_form_falsy_fields_witness :
    ∃ ps, generate_form_params "99" (some "") (10 : ℚ) (some "")
        PyBlocked.pynone PyAccountType.pynone = Except.ok ps ∧
      dictGet ps "extra['comment']" = none ∧
      dictGet ps "extra['account']" = none :=
  generate_form_falsy_fields (some "") (10 : ℚ) PyAccountType.pynone
    (by norm_num) rfl

/-- C10: `Wallet.__init__` normalizes a string wallet number before storing
it: every `'+'` character is removed, and if the result then starts with
`'8'` that first character is replaced by `'7'`; a non-string number is not
normalized or stored by this branch. -/
theorem wallet_init_number_normalization :
    (∀ s : List Char, ∃ r, Wallet.initNumber (some s) = some r ∧
      '+' ∉ r ∧
      (s.filter (fun c => c != '+') = [] → r = []) ∧
      (∀ c rest, s.filter (fun c => c != '+') = c :: rest →
        r = (if c = '8' then '7' else c) :: rest)) ∧
    Wallet.initNumber none = none := by
  constructor
  · intro s
    refine ⟨Wallet.normalizeNumber s, rfl, ?_, ?_, ?_⟩
    · have hmem : ∀ x ∈ s.filter (fun c => c != '+'), x ≠ '+' := by
        intro x hx
        simpa using (List.of_mem_filter hx)
      unfold Wallet.normalizeNumber
      cases hf : s.filter (fun c => c != '+') with
      | nil => simp
      | cons c rest =>
        have hcrest : ∀ x ∈ (c :: rest : List Char), x ≠ '+' := hf ▸ hmem
        by_cases hc : c = '8'
        · simp only [if_pos hc]
          intro hp
          rcases List.mem_cons.mp hp with h7 | hp'
          · exact absurd h7.symm (by decide)
          · exact hcrest '+' (List.mem_cons_of_mem _ hp') rfl
        · simp only [if_neg hc]
          intro hp
          exact hcrest '+' hp rfl
    · intro hf
      unfold Wallet.normalizeNumber
      rw [hf]
    · intro c rest hf
      unfold Wallet.normalizeNumber
      rw [hf]
      by_cases hc : c = '8'
      · simp [hc]
      · simp [hc]
  · rfl

end Pyqiwi
